import Mathlib

/-!
Verification of the Rawdah admin slot-management core: the date-range
expander, the conflict detector, the CSV serializer and the totals
aggregator, embedded shallowly from the single page component.

Modelling choices:
* Calendar dates are day numbers (`Nat`) at day granularity; the weekday of
  day `d` is entry `d % 7` of the Sunday-first weekday table, mirroring
  `weekdayName(d) = names[d.getDay()]`.  The epoch offset is irrelevant: every
  statement quantifies over all dates.  The ISO string `fmtDate` produces is
  injective on days, so rows carry the day number directly.
* Spreadsheet cell values are integers, strings or null (`Cell`); a missing
  key reads as `none` (JS `undefined`).  JS `Number()` is modelled on this
  cell domain with `none` for NaN; no verified property depends on NaN
  propagation, so `norm` collapses NaN to 0 where the source stores a number.
-/

namespace Rawdah

/-- The weekday table of the source (`WEEKDAYS` without the `All` sentinel),
Sunday-first, as used by `weekdayName`. -/
def weekdayNames : List String :=
  ["Sunday", "Monday", "Tuesday", "Wednesday", "Thursday", "Friday", "Saturday"]

/-- `weekdayName(d) = names[d.getDay()]`: day `d` has weekday `d % 7`,
Sunday-first. -/
def weekdayName (d : Nat) : String :=
  weekdayNames.getD (d % 7) "Sunday"

/-- `dateRange(from, to)`: every day of the closed interval, ascending;
`while (d <= to) { yield d; d++ }`. -/
def dateRange (a b : Nat) : List Nat :=
  if _h : a ≤ b then a :: dateRange (a + 1) b else []
termination_by b + 1 - a
decreasing_by simp_wf; omega

/-- A parsed slot template (interface `SlotRow`). -/
structure SlotRow where
  Slot_ID : Int
  Start_Time : String
  End_Time : String
  Day : String
  Gender : String
  Capacity : Int
deriving Repr, DecidableEq

/-- A template bound to a concrete date (interface `ExpandedRow`),
`{ ...r, Date: fmtDate(d) }` with the date kept as a day number. -/
structure ExpandedRow where
  Slot_ID : Int
  Start_Time : String
  End_Time : String
  Day : String
  Gender : String
  Capacity : Int
  Date : Nat
deriving Repr, DecidableEq

/-- `{ ...r, Date: fmtDate(d) }`. -/
def toExpanded (r : SlotRow) (d : Nat) : ExpandedRow :=
  { Slot_ID := r.Slot_ID, Start_Time := r.Start_Time, End_Time := r.End_Time,
    Day := r.Day, Gender := r.Gender, Capacity := r.Capacity, Date := d }

/-- The guard of the expansion loop: `r.Day === "All" || r.Day === wd`. -/
def matchesDay (r : SlotRow) (d : Nat) : Bool :=
  r.Day == "All" || r.Day == weekdayName d

/-- The expansion loop of `handleValidatePreview` (lines 137-141):
`for (const d of dateRange(from, to)) { for (const r of norm) { if (r.Day ===
"All" || r.Day === wd) expanded.push({ ...r, Date: fmtDate(d) }); } }`. -/
def expand (tpls : List SlotRow) (a b : Nat) : List ExpandedRow :=
  (dateRange a b).flatMap fun d =>
    (tpls.filter fun r => matchesDay r d).map fun r => toExpanded r d

-- Closed form of `dateRange`: the ascending list `[a, a+1, ..., b]`.

lemma dateRange_eq (a b : Nat) :
    dateRange a b = (List.range (b + 1 - a)).map (fun i => a + i) := by
  rw [dateRange]
  by_cases h : a ≤ b
  · have ih := dateRange_eq (a + 1) b
    have hk : b + 1 - a = (b + 1 - (a + 1)) + 1 := by omega
    rw [dif_pos h, ih, hk, List.range_succ_eq_map, List.map_cons, List.map_map]
    simp only [Nat.add_zero]
    congr 1
    apply List.map_congr_left
    intro i _
    simp only [Function.comp_apply]
    omega
  · have hk : b + 1 - a = 0 := by omega
    simp [h, hk]
termination_by b + 1 - a
decreasing_by simp_wf; omega

lemma mem_dateRange {a b d : Nat} : d ∈ dateRange a b ↔ a ≤ d ∧ d ≤ b := by
  rw [dateRange_eq]
  simp only [List.mem_map, List.mem_range]
  constructor
  · rintro ⟨i, hi, rfl⟩; omega
  · rintro ⟨h1, h2⟩; exact ⟨d - a, by omega, by omega⟩

lemma sum_map_range (n : Nat) (g : Nat → Nat) :
    ((List.range n).map g).sum = ∑ i in Finset.range n, g i := by
  induction n with
  | zero => simp
  | succ k ih =>
    rw [List.range_succ, Finset.sum_range_succ, List.map_append, List.sum_append]
    simp [ih]

/-- A concrete template used to instantiate proved statements. -/
def sampleAll : SlotRow :=
  { Slot_ID := 1, Start_Time := "08:00", End_Time := "09:00", Day := "All",
    Gender := "Men", Capacity := 3 }

/-- C6: with `from > to` the expansion loop runs over no dates and produces
an empty sequence rather than failing. -/
theorem expand_from_gt_to_empty (tpls : List SlotRow) (a b : Nat)
    (h : b < a) : expand tpls a b = [] := by
  have hd : dateRange a b = [] := by
    rw [dateRange_eq]
    have : b + 1 - a = 0 := by omega
    simp [this]
  rw [expand, hd]
  rfl

theorem expand_from_gt_to_empty_wit :
    (3 : Nat) < 5 ∧ expand [sampleAll] 5 3 = [] :=
  ⟨by decide, expand_from_gt_to_empty [sampleAll] 5 3 (by decide)⟩

/-- C1: with `from ≤ to`, `expand` produces exactly
`Σ over days d in [from, to] of count(templates whose Day is "All" or the
weekday of d)` rows, and every produced row's date lies in `[from, to]`. -/
theorem expand_count_and_date_bounds (tpls : List SlotRow) (a b : Nat)
    (h : a ≤ b) :
    (expand tpls a b).length =
        ∑ d in Finset.Icc a b, tpls.countP (fun r => matchesDay r d) ∧
      ∀ row ∈ expand tpls a b, a ≤ row.Date ∧ row.Date ≤ b := by
  constructor
  · rw [expand, List.length_flatMap, dateRange_eq, List.map_map,
      ← Nat.Ico_succ_right, Finset.sum_Ico_eq_sum_range, sum_map_range]
    apply Finset.sum_congr rfl
    intro i _
    simp only [Function.comp_apply, List.length_map]
    rw [List.countP_eq_length_filter]
  · intro row hrow
    rw [expand] at hrow
    simp only [List.mem_flatMap, List.mem_map, List.mem_filter] at hrow
    obtain ⟨d, hd, r, _, rfl⟩ := hrow
    have hmem := mem_dateRange.mp hd
    simpa [toExpanded] using hmem

theorem expand_count_and_date_bounds_wit :
    (0 : Nat) ≤ 1 ∧
      ((expand [sampleAll] 0 1).length =
          ∑ d in Finset.Icc 0 1, [sampleAll].countP (fun r => matchesDay r d) ∧
        ∀ row ∈ expand [sampleAll] 0 1, 0 ≤ row.Date ∧ row.Date ≤ 1) :=
  ⟨by decide, expand_count_and_date_bounds [sampleAll] 0 1 (by decide)⟩

lemma dateRange_sorted (a b : Nat) :
    List.Pairwise (· ≤ ·) (dateRange a b) := by
  rw [dateRange_eq, List.pairwise_map]
  exact (List.pairwise_lt_range _).imp fun hij => by omega

lemma pairwise_le_flatMap {l : List Nat} (hl : List.Pairwise (· ≤ ·) l)
    (g : Nat → List Nat) (hg : ∀ d, ∀ x ∈ g d, x = d) :
    List.Pairwise (· ≤ ·) (l.flatMap g) := by
  induction l with
  | nil => simp
  | cons c cs ih =>
    rw [List.flatMap_cons, List.pairwise_append]
    rw [List.pairwise_cons] at hl
    refine ⟨?_, ih hl.2, ?_⟩
    · apply List.pairwise_of_forall_mem_list
      intro x hx y hy
      rw [hg c x hx, hg c y hy]
    · intro x hx y hy
      rw [List.mem_flatMap] at hy
      obtain ⟨d, hd, hyd⟩ := hy
      rw [hg c x hx, hg d y hyd]
      exact hl.1 d hd

lemma flatMap_congr_aux {α β : Type} {l : List α} {f g : α → List β}
    (h : ∀ x ∈ l, f x = g x) : l.flatMap f = l.flatMap g := by
  induction l with
  | nil => rfl
  | cons c cs ih =>
    rw [List.flatMap_cons, List.flatMap_cons, h c (by simp),
      ih fun x hx => h x (by simp [hx])]

/-- C3: the output of `expand` is date-major and template-minor: it equals
the concatenation, over the ascending list of days `from, from+1, ..., to`,
of the blocks obtained by filtering the template list in its original order
(each matching template, duplicates included, yielding its own row); in
particular the emitted dates are nondecreasing. -/
theorem expand_date_major_order (tpls : List SlotRow) (a b : Nat)
    (h : a ≤ b) :
    expand tpls a b =
        ((List.range (b + 1 - a)).map (fun i => a + i)).flatMap
          (fun d => (tpls.filter fun r => matchesDay r d).map
            fun r => toExpanded r d) ∧
      List.Pairwise (· ≤ ·) ((expand tpls a b).map fun row => row.Date) := by
  constructor
  · rw [expand, dateRange_eq]
  · have hmap : (expand tpls a b).map (fun row => row.Date) =
        (dateRange a b).flatMap
          (fun d => (tpls.filter fun r => matchesDay r d).map fun _ => d) := by
      rw [expand, List.map_flatMap]
      apply flatMap_congr_aux
      intro d _
      rw [List.map_map]
      rfl
    rw [hmap]
    apply pairwise_le_flatMap (dateRange_sorted a b)
    intro d x hx
    obtain ⟨r, _, rfl⟩ := List.mem_map.mp hx
    rfl

theorem expand_date_major_order_wit :
    (0 : Nat) ≤ 1 ∧
      (expand [sampleAll] 0 1 =
          ((List.range (1 + 1 - 0)).map (fun i => 0 + i)).flatMap
            (fun d => ([sampleAll].filter fun r => matchesDay r d).map
              fun r => toExpanded r d) ∧
        List.Pairwise (· ≤ ·)
          ((expand [sampleAll] 0 1).map fun row => row.Date)) :=
  ⟨by decide, expand_date_major_order [sampleAll] 0 1 (by decide)⟩

/-!
Conflict detection (lines 143-146): a single pass over the expanded rows
builds a record keyed by `Date|Slot_ID`; for each row with that key the
`men` (resp. `women`) counter is incremented by `Capacity > 0 ? 1 : 0` when
the gender is "Men" (resp. "Women").  The per-key counters therefore equal
the following counts, and a key absent from the record has both counts 0.
-/

/-- `conflicts[key].men` for `key = date|slotId`. -/
def menPosCount (rows : List ExpandedRow) (d : Nat) (sid : Int) : Nat :=
  rows.countP fun r =>
    r.Date == d && r.Slot_ID == sid && (r.Gender == "Men" && decide (0 < r.Capacity))

/-- `conflicts[key].women` for `key = date|slotId`. -/
def womenPosCount (rows : List ExpandedRow) (d : Nat) (sid : Int) : Nat :=
  rows.countP fun r =>
    r.Date == d && r.Slot_ID == sid && (r.Gender == "Women" && decide (0 < r.Capacity))

/-- Membership of a key in `bad`: `v.men > 0 && v.women > 0`. -/
def isConflict (rows : List ExpandedRow) (d : Nat) (sid : Int) : Bool :=
  decide (0 < menPosCount rows d sid) && decide (0 < womenPosCount rows d sid)

/-- A Men row of capacity 3 on day 7, slot 1. -/
def menRow3 : ExpandedRow :=
  { Slot_ID := 1, Start_Time := "08:00", End_Time := "09:00", Day := "All",
    Gender := "Men", Capacity := 3, Date := 7 }

/-- A Women row of capacity 2 on day 7, slot 1. -/
def womenRow2 : ExpandedRow :=
  { Slot_ID := 1, Start_Time := "09:00", End_Time := "10:00", Day := "All",
    Gender := "Women", Capacity := 2, Date := 7 }

/-- A Women row of capacity 0 on day 7, slot 1. -/
def womenRow0 : ExpandedRow :=
  { Slot_ID := 1, Start_Time := "09:00", End_Time := "10:00", Day := "All",
    Gender := "Women", Capacity := 0, Date := 7 }

/-- C4: a (date, slotId) group is flagged iff it holds at least one Men row
of positive capacity and at least one Women row of positive capacity; in
particular one Men row of capacity 3 plus one Women row of capacity 2 is
flagged, and with the Women capacity 0 it is not. -/
theorem conflict_iff_both_genders_positive :
    (∀ (rows : List ExpandedRow) (d : Nat) (sid : Int),
      isConflict rows d sid = true ↔
        ((∃ r ∈ rows, r.Date = d ∧ r.Slot_ID = sid ∧
            r.Gender = "Men" ∧ 0 < r.Capacity) ∧
          (∃ r ∈ rows, r.Date = d ∧ r.Slot_ID = sid ∧
            r.Gender = "Women" ∧ 0 < r.Capacity))) ∧
      isConflict [menRow3, womenRow2] 7 1 = true ∧
      isConflict [menRow3, womenRow0] 7 1 = false := by
  refine ⟨?_, by decide, by decide⟩
  intro rows d sid
  unfold isConflict menPosCount womenPosCount
  simp only [Bool.and_eq_true, decide_eq_true_eq, List.countP_pos_iff,
    beq_iff_eq]
  constructor
  · rintro ⟨⟨r, hr, h1⟩, ⟨s, hs, h2⟩⟩
    exact ⟨⟨r, hr, by tauto⟩, ⟨s, hs, by tauto⟩⟩
  · rintro ⟨⟨r, hr, h1⟩, ⟨s, hs, h2⟩⟩
    exact ⟨⟨r, hr, by tauto⟩, ⟨s, hs, by tauto⟩⟩

/-!
The totals widget (`totals`, lines 170-175): one fold over the imported
rows accumulating `total`, `men` and `women`, and one reduce over the
bookings accumulating `booked`.
-/

/-- Booking status: `"Booked" | "Checked-in" | "Cancelled"`. -/
inductive BookingStatus where
  | Booked
  | CheckedIn
  | Cancelled
deriving Repr, DecidableEq, BEq

/-- A booking record (interface `BookingRow`), the date kept as a day
number. -/
structure BookingRow where
  Booking_ID : String
  Date : Nat
  Slot_ID : Int
  Start_Time : String
  End_Time : String
  Gender : String
  Seats_Booked : Int
  Pilgrim_Name : String
  Nationality : String
  Pilgrim_ID : String
  Group : Option String
  Status : BookingStatus
  Created_At : String
deriving Repr, DecidableEq

/-- The four widget values. -/
structure Totals where
  total : Int
  men : Int
  women : Int
  booked : Int
deriving Repr, DecidableEq

/-- Loop body for the imported rows: `total += r.Capacity; if (r.Gender ===
"Men") men += r.Capacity; else women += r.Capacity;`. -/
def capStep (acc : Totals) (r : ExpandedRow) : Totals :=
  if r.Gender == "Men" then
    { acc with total := acc.total + r.Capacity, men := acc.men + r.Capacity }
  else
    { acc with total := acc.total + r.Capacity, women := acc.women + r.Capacity }

/-- Reducer for the bookings:
`s + (b.Status !== "Cancelled" ? b.Seats_Booked : 0)`. -/
def bookedStep (s : Int) (b : BookingRow) : Int :=
  s + (if b.Status != BookingStatus.Cancelled then b.Seats_Booked else 0)

/-- `totals` (lines 170-175). -/
def totals (imported : List ExpandedRow) (bookings : List BookingRow) : Totals :=
  { imported.foldl capStep { total := 0, men := 0, women := 0, booked := 0 } with
    booked := bookings.foldl bookedStep 0 }

/-- Sum of `Capacity` over all rows. -/
def capSum (l : List ExpandedRow) : Int := (l.map fun r => r.Capacity).sum

/-- Sum of `Capacity` over the rows whose gender is "Men". -/
def menCapSum (l : List ExpandedRow) : Int :=
  ((l.filter fun r => r.Gender == "Men").map fun r => r.Capacity).sum

/-- Sum of `Capacity` over the rows whose gender is "Women". -/
def womenCapSum (l : List ExpandedRow) : Int :=
  ((l.filter fun r => r.Gender == "Women").map fun r => r.Capacity).sum

/-- Sum of `Capacity` over the rows whose gender is anything but "Men". -/
def nonMenCapSum (l : List ExpandedRow) : Int :=
  ((l.filter fun r => !(r.Gender == "Men")).map fun r => r.Capacity).sum

/-- Sum of `Seats_Booked` over the bookings whose status is not
Cancelled. -/
def bookedSum (l : List BookingRow) : Int :=
  ((l.filter fun b => b.Status != BookingStatus.Cancelled).map
    fun b => b.Seats_Booked).sum

lemma foldl_capStep (l : List ExpandedRow) (acc : Totals) :
    l.foldl capStep acc =
      { total := acc.total + capSum l, men := acc.men + menCapSum l,
        women := acc.women + nonMenCapSum l, booked := acc.booked } := by
  induction l generalizing acc with
  | nil => simp [capSum, menCapSum, nonMenCapSum]
  | cons r rs ih =>
    rw [List.foldl_cons, ih]
    unfold capStep capSum menCapSum nonMenCapSum
    cases hg : r.Gender == "Men" <;>
      simp [hg, List.filter_cons, Totals.mk.injEq] <;>
      omega

lemma foldl_bookedStep (l : List BookingRow) (s : Int) :
    l.foldl bookedStep s = s + bookedSum l := by
  induction l generalizing s with
  | nil => simp [bookedSum]
  | cons b bs ih =>
    rw [List.foldl_cons, ih]
    unfold bookedStep bookedSum
    cases hb : b.Status != BookingStatus.Cancelled <;>
      simp only [hb, Bool.false_eq_true, if_false, if_true, List.filter_cons,
        List.map_cons, List.sum_cons] <;>
      omega

/-- A row whose gender is neither of the two recognized values. -/
def otherGenderRow : ExpandedRow :=
  { Slot_ID := 2, Start_Time := "10:00", End_Time := "11:00", Day := "All",
    Gender := "Families", Capacity := 5, Date := 0 }

/-- C5 counterexample: a single row of gender "Families" and capacity 5 has
no Women row at all, yet the aggregator's women total is 5, not 0: a gender
other than the two recognized values lands in the women bucket. -/
theorem totals_other_gender_in_women_cex :
    (totals [otherGenderRow] []).women = 5 ∧
      [otherGenderRow].filter (fun r => r.Gender == "Women") = [] ∧
      womenCapSum [otherGenderRow] = 0 := by
  refine ⟨by decide, by decide, by decide⟩

/-- C5 (amended): the men total is the sum of capacity over the rows whose
gender is "Men"; the women total is the sum of capacity over all other rows,
a row with an unrecognized gender value included; the overall total is the
sum of capacity over all rows. -/
theorem totals_bucket_sums (imported : List ExpandedRow)
    (bookings : List BookingRow) :
    (totals imported bookings).total = capSum imported ∧
      (totals imported bookings).men = menCapSum imported ∧
      (totals imported bookings).women = nonMenCapSum imported := by
  unfold totals
  rw [foldl_capStep]
  simp

/-- A Booked booking of 3 seats. -/
def bkBooked3 : BookingRow :=
  { Booking_ID := "B00001", Date := 0, Slot_ID := 1, Start_Time := "08:00",
    End_Time := "09:00", Gender := "Men", Seats_Booked := 3,
    Pilgrim_Name := "Ahmed A.", Nationality := "KSA", Pilgrim_ID := "P100001",
    Group := none, Status := BookingStatus.Booked,
    Created_At := "2025-01-01T00:00:00.000Z" }

/-- A Cancelled booking of 2 seats. -/
def bkCancelled2 : BookingRow :=
  { bkBooked3 with Booking_ID := "B00002", Seats_Booked := 2, Status := BookingStatus.Cancelled }

/-- A Checked-in booking of 4 seats. -/
def bkCheckedIn4 : BookingRow :=
  { bkBooked3 with Booking_ID := "B00003", Seats_Booked := 4, Status := BookingStatus.CheckedIn }

/-- C8: the booked total is the sum of seats booked over exactly the
bookings whose status is not Cancelled; seats {3 Booked, 2 Cancelled,
4 Checked-in} yield 7. -/
theorem totals_booked_sum (imported : List ExpandedRow)
    (bookings : List BookingRow) :
    (totals imported bookings).booked = bookedSum bookings ∧
      (totals [] [bkBooked3, bkCancelled2, bkCheckedIn4]).booked = 7 := by
  constructor
  · unfold totals
    rw [foldl_bookedStep]
    simp
  · decide

/-!
The CSV serializer (`buildCSV`, lines 32-43).  A spreadsheet cell is an
integer, a string or null; a missing object key reads as `none`
(JS `undefined`).  A row object is an ordered association list (JS object
keys are unique and ordered).
-/

/-- A cell value of a row object. -/
inductive Cell where
  | str (s : String)
  | num (n : Int)
  | null
deriving Repr, DecidableEq

/-- A row object, field names in key order. -/
abbrev JsRow := List (String × Cell)

/-- `String(val ?? "")` (line 36): undefined and null become the empty
string, numbers print decimally. -/
def cellText : Option Cell → String
  | none => ""
  | some Cell.null => ""
  | some (Cell.str s) => s
  | some (Cell.num n) => toString n

/-- The regex test of line 38: `/[",\n\r]/.test(s)`. -/
def hasSpecialChar (s : String) : Bool :=
  s.data.any fun c => c == '"' || c == ',' || c == '\n' || c == '\r'

/-- `s.replaceAll('"', '""')` (line 38). -/
def doubleQuotes (s : String) : String :=
  String.mk (s.data.flatMap fun c => if c == '"' then ['"', '"'] else [c])

/-- `esc` (lines 35-39), the local `s = String(val ?? "")` inlined. -/
def esc (val : Option Cell) : String :=
  if hasSpecialChar (cellText val) then
    "\"" ++ doubleQuotes (cellText val) ++ "\""
  else cellText val

/-- `buildCSV` (lines 32-43): empty input gives the empty string; otherwise
the header line is the first row's keys joined by commas, then one line per
row, each field looked up by a first-row key and escaped, all lines joined
by a line feed. -/
def buildCSV (rows : List JsRow) : String :=
  match rows with
  | [] => ""
  | r0 :: _ =>
    let headers := r0.map Prod.fst
    let lines := rows.foldl
      (fun ls r => ls ++ [String.intercalate "," (headers.map fun h => esc (r.lookup h))])
      [String.intercalate "," headers]
    String.intercalate "\n" lines

/-- Stated from the spec: a field needs quoting when it "contains a comma, a
double quote, a line feed, or a carriage return". -/
def specialField (s : String) : Bool :=
  decide (∃ c ∈ s.data, c = ',' ∨ c = '"' ∨ c = '\n' ∨ c = '\r')

/-- Stated from the spec: the field "with every internal double quote
doubled". -/
def quoteDoubled (s : String) : String :=
  String.mk (s.data.flatMap fun c => if c = '"' then ['"', '"'] else [c])

lemma hasSpecialChar_iff (s : String) :
    hasSpecialChar s = true ↔
      ∃ c ∈ s.data, c = ',' ∨ c = '"' ∨ c = '\n' ∨ c = '\r' := by
  unfold hasSpecialChar
  simp only [List.any_eq_true, Bool.or_eq_true, beq_iff_eq]
  constructor
  · rintro ⟨c, hc, hor⟩; exact ⟨c, hc, by tauto⟩
  · rintro ⟨c, hc, hor⟩; exact ⟨c, hc, by tauto⟩

lemma specialField_iff (s : String) :
    specialField s = true ↔
      ∃ c ∈ s.data, c = ',' ∨ c = '"' ∨ c = '\n' ∨ c = '\r' := by
  unfold specialField
  simp

lemma hasSpecialChar_eq_specialField (s : String) :
    hasSpecialChar s = specialField s := by
  cases h : specialField s with
  | true => exact (hasSpecialChar_iff s).mpr ((specialField_iff s).mp h)
  | false =>
    cases h2 : hasSpecialChar s with
    | false => rfl
    | true =>
      have := (specialField_iff s).mpr ((hasSpecialChar_iff s).mp h2)
      rw [h] at this
      exact absurd this (by simp)

lemma doubleQuotes_eq_quoteDoubled (s : String) :
    doubleQuotes s = quoteDoubled s := by
  unfold doubleQuotes quoteDoubled
  congr 1
  congr 1
  funext c
  by_cases hc : c = '"' <;> simp [hc]

/-- C2: a field's rendering in the serializer is wrapped in double quotes
with every internal double quote doubled exactly when its text contains a
comma, a double quote, a line feed, or a carriage return; otherwise it is
emitted unquoted and unescaped. -/
theorem csv_field_quoting (val : Option Cell) :
    (specialField (cellText val) = true ∧
        esc val = "\"" ++ quoteDoubled (cellText val) ++ "\"") ∨
      (specialField (cellText val) = false ∧ esc val = cellText val) := by
  cases h : specialField (cellText val) with
  | true =>
    left
    refine ⟨rfl, ?_⟩
    unfold esc
    rw [hasSpecialChar_eq_specialField, h, doubleQuotes_eq_quoteDoubled]
    rfl
  | false =>
    right
    refine ⟨rfl, ?_⟩
    unfold esc
    rw [hasSpecialChar_eq_specialField, h]
    rfl

lemma foldl_append_singleton {α β : Type} (g : α → β) (l : List α)
    (init : List β) :
    l.foldl (fun ls r => ls ++ [g r]) init = init ++ l.map g := by
  induction l generalizing init with
  | nil => simp
  | cons a as ih => simp [List.foldl_cons, ih]

/-- C7: the serializer returns the empty string on no rows; otherwise the
output is the first row's field names in key order joined by commas,
followed by one line per row (fields looked up by first-row keys only, so
extra keys are dropped), lines joined by a single line feed with no trailing
newline; null and absent fields render as empty cells; and
`buildCSV [⟨A:"hello", B:123⟩] = "A,B\nhello,123"`. -/
theorem buildCSV_shape :
    buildCSV [] = "" ∧
      (∀ (r0 : JsRow) (rs : List JsRow),
        buildCSV (r0 :: rs) =
          String.intercalate "\n"
            (String.intercalate "," (r0.map Prod.fst) ::
              (r0 :: rs).map fun r =>
                String.intercalate ","
                  ((r0.map Prod.fst).map fun h => esc (r.lookup h)))) ∧
      esc none = "" ∧ esc (some Cell.null) = "" ∧
      buildCSV [[("A", Cell.str "hello"), ("B", Cell.num 123)]] =
        "A,B\nhello,123" := by
  refine ⟨rfl, ?_, rfl, rfl, by decide⟩
  intro r0 rs
  show String.intercalate "\n"
      ((r0 :: rs).foldl
        (fun ls r => ls ++ [String.intercalate ","
          ((r0.map Prod.fst).map fun h => esc (r.lookup h))])
        [String.intercalate "," (r0.map Prod.fst)]) = _
  rw [foldl_append_singleton]
  rfl

/-!
The validate-and-preview handler (`handleValidatePreview`, lines 119-152):
read the workbook, take the first sheet's rows, check the required headers
against the keys of the first parsed row, normalise, expand, and only then
commit the result with `setImported`; a throw anywhere earlier is caught and
surfaced as a message, leaving the held state as it was.
-/

/-- `required` (line 127). -/
def requiredHeaders : List String :=
  ["Slot_ID", "Start_Time", "End_Time", "Day", "Gender", "Capacity"]

/-- The header check of line 128:
`required.every(h => Object.keys(rows[0]||{}).includes(h))` — only the keys
of the first parsed data row are inspected, and an empty row list reads as
the empty object, whatever the sheet's header row contained. -/
def headerOk (rows : List JsRow) : Bool :=
  requiredHeaders.all fun h => ((rows.headD []).map Prod.fst).contains h

/-- `String(v)` on a cell (used by `norm`): undefined prints "undefined" and
null prints "null". -/
def jsStr : Option Cell → String
  | none => "undefined"
  | some Cell.null => "null"
  | some (Cell.str s) => s
  | some (Cell.num n) => toString n

/-- `Number(v)` on a cell, `none` standing for NaN: `Number(undefined)` is
NaN, `Number(null)` and `Number("")` are 0, and a string cell parses as a
decimal integer after trimming (the cell domain of this model has no
fractional numbers), anything else being NaN. -/
def jsNum : Option Cell → Option Int
  | none => none
  | some Cell.null => some 0
  | some (Cell.num n) => some n
  | some (Cell.str s) => if s.trim = "" then some 0 else s.trim.toInt?

/-- JS falsiness of a cell value, for `r.Capacity || 0`. -/
def falsyCell : Option Cell → Bool
  | none => true
  | some Cell.null => true
  | some (Cell.num n) => n == 0
  | some (Cell.str s) => s == ""

/-- `norm` (lines 131-133), per row: `Slot_ID: Number(r.Slot_ID),
Start_Time: String(r.Start_Time), ..., Capacity: Number(r.Capacity || 0)`.
The stored numbers are integers here, a NaN collapsing to 0; no verified
property depends on NaN propagation. -/
def normRow (r : JsRow) : SlotRow :=
  { Slot_ID := (jsNum (r.lookup "Slot_ID")).getD 0,
    Start_Time := jsStr (r.lookup "Start_Time"),
    End_Time := jsStr (r.lookup "End_Time"),
    Day := jsStr (r.lookup "Day"),
    Gender := jsStr (r.lookup "Gender"),
    Capacity := (jsNum (if falsyCell (r.lookup "Capacity") then
      some (Cell.num 0) else r.lookup "Capacity")).getD 0 }

/-- The imported expanded-row state after `handleValidatePreview` runs,
given the prior state and the outcome of reading and parsing the workbook;
`none` models a throw while reading or parsing.  `setImported` (line 148)
runs only after the header check and the expansion have succeeded, and the
`catch` of line 150 turns any earlier throw into a message without touching
the state. -/
def validatePreviewState (prior : List ExpandedRow)
    (parsed : Option (List JsRow)) (a b : Nat) : List ExpandedRow :=
  match parsed with
  | none => prior
  | some rows =>
    if headerOk rows then expand (rows.map normRow) a b else prior

/-- C9: whenever validate-and-preview fails — a throw during reading or
parsing, or missing required headers — the previously held imported state
is unchanged; the handler commits its output only on full success. -/
theorem validate_preview_keeps_state_on_failure (prior : List ExpandedRow)
    (parsed : Option (List JsRow)) (a b : Nat)
    (h : parsed = none ∨ ∃ rows, parsed = some rows ∧ headerOk rows = false) :
    validatePreviewState prior parsed a b = prior := by
  rcases h with h | ⟨rows, rfl, hbad⟩
  · rw [h]; rfl
  · simp [validatePreviewState, hbad]

theorem validate_preview_keeps_state_on_failure_wit :
    ((some ([] : List JsRow) = none ∨
        ∃ rows, some ([] : List JsRow) = some rows ∧ headerOk rows = false) ∧
      validatePreviewState [menRow3] (some []) 0 3 = [menRow3]) :=
  ⟨Or.inr ⟨[], rfl, by decide⟩,
    validate_preview_keeps_state_on_failure [menRow3] (some []) 0 3
      (Or.inr ⟨[], rfl, by decide⟩)⟩

/-- C10: header validation inspects the keys of the first parsed data row
only: with zero data rows it fails (the check reads the empty object, even
if the sheet's header row named all six columns), and on a non-empty row
sequence it succeeds exactly when the first row's keys include all six
required column names. -/
theorem header_check_reads_first_row_only :
    headerOk [] = false ∧
      ∀ (r : JsRow) (rs : List JsRow),
        (headerOk (r :: rs) = true ↔
          ∀ h ∈ requiredHeaders, h ∈ r.map Prod.fst) := by
  refine ⟨by decide, ?_⟩
  intro r rs
  unfold headerOk
  simp [List.all_eq_true]

end Rawdah
